import Mathlib

/-!
Verification of the programmator iteration-control loop.

This file embeds the core of the programmator repository in Lean 4:

* src/safety.py        — safety gates (SafetyConfig, SafetyState, check_safety)
* src/response_parser.py — the PROGRAMMATOR_STATUS sentinel-block parser
* src/ticket_client.py — the ticket model and its line-oriented parser
* src/loop.py          — the orchestration loop, modelled as a pure cycle
                         function plus a fuelled run function over an
                         environment of externally supplied tickets and
                         agent outputs

Python strings are modelled as List Char.  Python regular-expression
searches are modelled at line granularity, with the exact backtracking
behaviour of the two patterns in response_parser.py spelled out in the
doc comments of the corresponding definitions.
-/

namespace Programmator

/-- Shorthand turning a Lean string literal into the List Char carrier
used for all embedded Python strings. -/
def str (s : String) : List Char := s.data

/-- Characters matched by Python's whitespace class (ASCII range), used
by str.strip() and by the regex class backslash-s. -/
def pySpace (c : Char) : Bool :=
  c = ' ' ∨ c = '\t' ∨ c = '\n' ∨ c = '\r' ∨ c = '\x0b' ∨ c = '\x0c'

/-- Python str.lstrip(): drop leading whitespace. -/
def pyStripLeft (l : List Char) : List Char := l.dropWhile pySpace

/-- Python str.rstrip(): drop trailing whitespace. -/
def pyStripRight (l : List Char) : List Char :=
  (l.reverse.dropWhile pySpace).reverse

/-- Python str.strip(): drop whitespace at both ends. -/
def pyStrip (l : List Char) : List Char := pyStripLeft (pyStripRight l)

/-- Splitting a text on newline characters, matching Python
text.split(chr(10)): the empty text yields one empty line, and a
trailing newline yields a final empty line. -/
def splitLines : List Char → List (List Char)
  | [] => [[]]
  | c :: rest =>
    if c = '\n' then [] :: splitLines rest
    else match splitLines rest with
      | [] => [[c]]
      | l :: ls => (c :: l) :: ls

/-- Joining lines, each terminated by a newline. -/
def unlines : List (List Char) → List Char
  | [] => []
  | l :: ls => l ++ '\n' :: unlines ls

/-- Decimal digits of a Nat, via a structural fuel so that the kernel can
evaluate it; natStrAux fuel n is the decimal rendering of n whenever
n < 10 ^ fuel roughly, and fuel = n + 1 always suffices. -/
def natStrAux : Nat → Nat → List Char
  | 0, _ => []
  | _ + 1, n =>
    if n < 10 then [Char.ofNat (48 + n)]
    else natStrAux n (n / 10) ++ [Char.ofNat (48 + n % 10)]

/-- Decimal rendering of a Nat, matching Python str(int) on
non-negative values. -/
def natStr (n : Nat) : List Char := natStrAux (n + 1) n

/-- Decimal rendering of an Int, matching Python str(int). -/
def intStr : Int → List Char
  | .ofNat n => natStr n
  | .negSucc n => '-' :: natStr (n + 1)

/-- Dynamically typed Python values, as produced by yaml.safe_load on the
scalar/sequence subset that the status blocks use.  Python None is the
constructor PyVal.none. -/
inductive PyVal where
  | none
  | bool (b : Bool)
  | int (i : Int)
  | str (s : List Char)
  | list (elems : List PyVal)

mutual

/-- Python repr() on the PyVal subset (string quoting approximated by
plain single quotes, as no embedded value in this development contains
a quote character). -/
def pyRepr : PyVal → List Char
  | .none => str "None"
  | .bool true => str "True"
  | .bool false => str "False"
  | .int i => intStr i
  | .str s => '\'' :: s ++ ['\'']
  | .list l => '[' :: pyReprList l ++ [']']

/-- Comma-joined reprs of the elements of a Python list. -/
def pyReprList : List PyVal → List Char
  | [] => []
  | [x] => pyRepr x
  | x :: y :: xs => pyRepr x ++ str ", " ++ pyReprList (y :: xs)

end

/-- Python str() as used inside f-strings: identity on strings,
repr-like on everything else. -/
def pyStr : PyVal → List Char
  | .str s => s
  | v => pyRepr v

/-- Python truthiness on the PyVal subset. -/
def pyTruthy : PyVal → Bool
  | .none => false
  | .bool b => b
  | .int i => i ≠ 0
  | .str s => s ≠ []
  | .list l => !l.isEmpty

mutual

/-- Structural Boolean equality on PyVal, modelling Python equality on
the subset (including the numeric identification of True with 1 and
False with 0). -/
def pyBeq : PyVal → PyVal → Bool
  | .none, .none => true
  | .bool a, .bool b => a = b
  | .int a, .int b => a = b
  | .bool a, .int b => (if a then (1 : Int) else 0) = b
  | .int a, .bool b => a = (if b then (1 : Int) else 0)
  | .str a, .str b => a = b
  | .list a, .list b => pyBeqList a b
  | _, _ => false

/-- Elementwise Python equality of lists. -/
def pyBeqList : List PyVal → List PyVal → Bool
  | [], [] => true
  | a :: as', b :: bs' => pyBeq a b && pyBeqList as' bs'
  | _, _ => false

end

/-- Result of yaml.safe_load on a captured block: either a top-level
key/value mapping (a Python dict with string keys, in insertion order)
or some non-mapping document. -/
inductive YamlDoc where
  | mapping (entries : List (List Char × PyVal))
  | scalar (v : PyVal)

/-- Insert a key/value pair into a mapping, overwriting an existing
binding in place like a Python dict. -/
def dictInsert (d : List (List Char × PyVal)) (k : List Char) (v : PyVal) :
    List (List Char × PyVal) :=
  match d with
  | [] => [(k, v)]
  | (k', v') :: rest =>
    if k' = k then (k', v) :: rest else (k', v') :: dictInsert rest k v

/-- Python dict.get(k): the value bound to k, if any. -/
def dictGet (d : List (List Char × PyVal)) (k : List Char) : Option PyVal :=
  match d with
  | [] => Option.none
  | (k', v) :: rest => if k' = k then some v else dictGet rest k

/-- Whether a trimmed text is a decimal integer literal. -/
def isIntLit (l : List Char) : Bool :=
  match l with
  | '-' :: rest => rest ≠ [] ∧ rest.all Char.isDigit
  | _ => l ≠ [] ∧ l.all Char.isDigit

/-- Value of a decimal integer literal. -/
def intLitVal (l : List Char) : Int :=
  match l with
  | '-' :: rest => -(rest.foldl (fun a c => a * 10 + (c.toNat - 48)) 0 : Nat)
  | _ => (l.foldl (fun a c => a * 10 + (c.toNat - 48)) 0 : Nat)

/-- Modelled from the spec: the external YAML library's reading of one
flow-style scalar that is not itself a flow sequence (null-likes, plain
Booleans, integers, quoted strings, plain strings).  The input is
assumed stripped. -/
def parseScalarFlat (t : List Char) : PyVal :=
  if t = [] ∨ t = str "null" ∨ t = str "~" then .none
  else if t = str "true" ∨ t = str "True" then .bool true
  else if t = str "false" ∨ t = str "False" then .bool false
  else if isIntLit t then .int (intLitVal t)
  else
    match t with
    | '\"' :: rest => if rest ≠ [] ∧ rest.getLast? = some '\"' then .str rest.dropLast else .str t
    | '\'' :: rest => if rest ≠ [] ∧ rest.getLast? = some '\'' then .str rest.dropLast else .str t
    | _ => .str t

/-- Split a flow-sequence body on commas (flat: nested brackets are not
part of the modelled subset). -/
def splitCommas (l : List Char) : List (List Char) :=
  match l with
  | [] => [[]]
  | c :: rest =>
    if c = ',' then [] :: splitCommas rest
    else match splitCommas rest with
      | [] => [[c]]
      | p :: ps => (c :: p) :: ps

/-- Modelled from the spec: the external YAML library's reading of one
flow-style scalar value, including flow sequences with flat scalar
elements.  The input is assumed stripped. -/
def parseScalar (t : List Char) : PyVal :=
  match t with
  | '[' :: rest =>
    if rest.getLast? = some ']' then
      let body := pyStrip rest.dropLast
      if body = [] then .list []
      else .list ((splitCommas body).map (fun p => parseScalarFlat (pyStrip p)))
    else parseScalarFlat t
  | _ => parseScalarFlat t

/-- One line of a block mapping, split at the first colon that is
followed by a space or ends the line: the stripped key and the parsed
scalar value.  The input is assumed stripped and non-empty. -/
def mappingEntry (t : List Char) : Option (List Char × PyVal) :=
  match t with
  | [] => Option.none
  | ':' :: rest =>
    match rest with
    | [] => some ([], .none)
    | ' ' :: _ => some ([], parseScalar (pyStrip rest))
    | _ =>
      match mappingEntry rest with
      | some (k, v) => some (':' :: k, v)
      | Option.none => Option.none
  | c :: rest =>
    match mappingEntry rest with
    | some (k, v) => some (c :: k, v)
    | Option.none => Option.none

/-- Modelled from the spec: yaml.safe_load applied to the captured
indented block, given as its list of lines.  The spec calls the block a
key/value mapping in a whitespace-indented block-structured notation;
this model reads every non-blank line as one key/value pair (scalar
values only), yields a non-mapping document when no line has a key, and
fails (YAMLError) on a mixture. -/
def yamlLoadLines (capturedLines : List (List Char)) : Option YamlDoc :=
  let ls := (capturedLines.map pyStrip).filter (fun t => t ≠ [])
  match ls with
  | [] => some (.scalar .none)
  | first :: _ =>
    if ls.all (fun t => (mappingEntry t).isSome) then
      some (.mapping (ls.foldl
        (fun d t =>
          match mappingEntry t with
          | some (k, v) => dictInsert d (pyStrip k) v
          | Option.none => d)
        []))
    else if ls.all (fun t => (mappingEntry t).isNone) then
      some (.scalar (parseScalar first))
    else Option.none

/-! Embedding of src/response_parser.py. -/

/-- The Status enum of response_parser.py. -/
inductive Status where
  | CONTINUE
  | DONE
  | BLOCKED
deriving DecidableEq

/-- The ProgrammatorStatus dataclass of response_parser.py.  The Python
fields are dynamically typed (the annotations are not enforced), so the
fields other than status carry raw PyVal values exactly as the code
leaves them. -/
structure ProgrammatorStatus where
  phase_completed : PyVal
  status : Status
  files_changed : PyVal
  summary : PyVal
  error : PyVal

/-- Lines 48-70 of response_parser.py: field normalization applied to
the decoded mapping.  data.get(k) is dictGet with default None,
data.get(k, dflt) is dictGet with the given default; Status(x) raising
ValueError on anything but the three enum value strings is the
statusOfVal match below. -/
def statusOfVal : PyVal → Status
  | .str s =>
    if s = str "CONTINUE" then .CONTINUE
    else if s = str "DONE" then .DONE
    else if s = str "BLOCKED" then .BLOCKED
    else .CONTINUE
  | _ => .CONTINUE

/-- Field normalization of parse_response (response_parser.py lines
45-70), given the decoded top-level mapping. -/
def normalizeStatus (data : List (List Char × PyVal)) : ProgrammatorStatus :=
  let phase := (dictGet data (str "phase_completed")).getD .none
  let phase :=
    match phase with
    | PyVal.str s => if s = str "null" then PyVal.none else PyVal.str s
    | v => v
  let status := statusOfVal ((dictGet data (str "status")).getD (.str (str "CONTINUE")))
  let files := (dictGet data (str "files_changed")).getD (.list [])
  let files :=
    match files with
    | .none => PyVal.list []
    | .str s => PyVal.list [.str s]
    | v => v
  { phase_completed := phase
    status := status
    files_changed := files
    summary := (dictGet data (str "summary")).getD (.str [])
    error := (dictGet data (str "error")).getD .none }

/-- Whether a line matches the repeated chunk of the capture group, the
class space-or-tab once or more then any character once or more: it
starts with a space or tab and has at least two characters. -/
def isContent (l : List Char) : Bool :=
  match l with
  | c :: _ :: _ => c = ' ' ∨ c = '\t'
  | _ => false

/-- Whether a line consists of whitespace only (so the greedy
backslash-s-star of the patterns can run through it). -/
def wsOnly (l : List Char) : Bool := l.all pySpace

/-- The sentinel text of response_parser.py. -/
def sentinelStr : List Char := str "PROGRAMMATOR_STATUS:"

/-- Whether the bare pattern can begin on this line: it has an
occurrence of the sentinel followed by whitespace only up to the end of
the line (equivalently, the right-stripped line ends with the
sentinel). -/
def sentinelBareLine (l : List Char) : Bool :=
  sentinelStr.isSuffixOf (pyStripRight l)

/-- Backtracking choice of the capture-group start inside the
whitespace run that follows the sentinel: the greedy
backslash-s-star prefers the latest possible start, so the group starts
at the last whitespace-only line that itself matches the chunk shape,
when the first non-whitespace line does not.  Returns the line suffix
beginning at the chosen start. -/
def pickLast (run tail : List (List Char)) : Option (List (List Char)) :=
  match run with
  | [] => Option.none
  | w :: ws =>
    match pickLast ws tail with
    | some r => some r
    | Option.none => if isContent w then some (w :: ws ++ tail) else Option.none

/-- The match of backslash-s-star newline capture-group after the
sentinel, on the lines that follow the sentinel line: skip the greedy
maximal run of whitespace-only lines, start the group at the following
line if it matches the chunk shape, otherwise backtrack into the run;
the group is then the maximal run of chunk-shaped lines.  Returns the
captured lines and the remaining lines after them. -/
def captureFrom (rest : List (List Char)) : Option (List (List Char) × List (List Char)) :=
  let rest' := rest.dropWhile wsOnly
  let start :=
    match rest' with
    | l :: _ => if isContent l then some rest' else pickLast (rest.takeWhile wsOnly) rest'
    | [] => pickLast (rest.takeWhile wsOnly) []
  match start with
  | some s => some (s.takeWhile isContent, s.dropWhile isContent)
  | Option.none => Option.none

/-- re.search of the bare pattern of response_parser.py line 28, at line
granularity: the leftmost line on which the sentinel-plus-whitespace can
begin and whose following lines yield a non-empty capture group; the
result is the captured group as lines. -/
def findBare : List (List Char) → Option (List (List Char))
  | [] => Option.none
  | l :: rest =>
    if sentinelBareLine l then
      match captureFrom rest with
      | some (cap, _) => some cap
      | Option.none => findBare rest
    else findBare rest

/-- The fence text. -/
def fenceStr : List Char := str "```"

/-- Whether a line holds a fence followed on the same line (after
whitespace) by the sentinel and then whitespace only. -/
def fenceThenSentinel (l : List Char) : Bool :=
  let t := pyStripRight l
  sentinelStr.isSuffixOf t ∧
    fenceStr.isSuffixOf (pyStripRight (t.take (t.length - sentinelStr.length)))

/-- Whether a line ends, after right-stripping, with a fence (so the
fenced pattern can begin at that fence occurrence). -/
def fenceLine (l : List Char) : Bool :=
  fenceStr.isSuffixOf (pyStripRight l)

/-- The capture for the fenced pattern: the same group as captureFrom,
but the closing fence must immediately follow the group, so the first
remaining line must start with the fence.  Closing fences embedded
inside the final content line are a regex corner not exercised here and
not modelled. -/
def captureClosed (rest : List (List Char)) : Option (List (List Char)) :=
  match captureFrom rest with
  | some (cap, f :: _) => if fenceStr.isPrefixOf f then some cap else Option.none
  | _ => Option.none

/-- After a fence line, the whitespace of backslash-s-star may run over
whitespace-only lines before the sentinel, which may carry leading
whitespace on its own line. -/
def sentinelScan : List (List Char) → Option (List (List Char))
  | [] => Option.none
  | l :: rest =>
    if wsOnly l then sentinelScan rest
    else if pyStrip l = sentinelStr then captureClosed rest
    else Option.none

/-- re.search of the fenced pattern of response_parser.py line 32, at
line granularity: a fence, optional whitespace (possibly spanning
lines), the sentinel, then the same capture group as the bare pattern,
immediately followed by a closing fence. -/
def findFenced : List (List Char) → Option (List (List Char))
  | [] => Option.none
  | l :: rest =>
    if fenceThenSentinel l then
      match captureClosed rest with
      | some cap => some cap
      | Option.none => findFenced rest
    else if fenceLine l then
      match sentinelScan rest with
      | some cap => some cap
      | Option.none => findFenced rest
    else findFenced rest

/-- Lines 28-36 of parse_response: search for the bare pattern first and
for the fenced pattern only when the bare one finds no match; the result
is the captured group (as its list of lines). -/
def extractBlock (output : List Char) : Option (List (List Char)) :=
  let lines := splitLines output
  match findBare lines with
  | some cap => some cap
  | Option.none => findFenced lines

/-- parse_response of response_parser.py: extract the sentinel block,
decode it with the YAML model, fail on YAML errors and on non-mapping
documents, and normalize the fields. -/
def parse_response (output : List Char) : Option ProgrammatorStatus :=
  match extractBlock output with
  | Option.none => Option.none
  | some cap =>
    match yamlLoadLines cap with
    | Option.none => Option.none
    | some (.scalar _) => Option.none
    | some (.mapping d) => some (normalizeStatus d)

/-! Embedding of src/safety.py. -/

/-- The ExitReason enum of safety.py. -/
inductive ExitReason where
  | COMPLETE
  | MAX_ITERATIONS
  | STAGNATION
  | BLOCKED
  | USER_INTERRUPT
deriving DecidableEq

/-- The value attribute of each ExitReason member. -/
def ExitReason.value : ExitReason → List Char
  | .COMPLETE => str "complete"
  | .MAX_ITERATIONS => str "max_iterations"
  | .STAGNATION => str "stagnation"
  | .BLOCKED => str "blocked"
  | .USER_INTERRUPT => str "user_interrupt"

/-- The SafetyConfig dataclass of safety.py.  The fields are Python
ints (from_env may read any integer from the environment), so they are
embedded as Int. -/
structure SafetyConfig where
  max_iterations : Int := 50
  stagnation_limit : Int := 3
  timeout_seconds : Int := 900
deriving DecidableEq

/-- The SafetyState dataclass of safety.py.  The counters start at 0
and are only ever incremented or reset, so they are embedded as Nat. -/
structure SafetyState where
  iteration : Nat := 0
  consecutive_no_changes : Nat := 0
  last_error : Option (List Char) := Option.none
  consecutive_errors : Nat := 0
  files_changed_history : List (List (List Char)) := []
deriving DecidableEq

/-- Truthiness of the error argument of record_iteration (a str or
None per the annotation): true exactly on a non-empty string. -/
def errTruthy : Option (List Char) → Bool
  | some e => e ≠ []
  | Option.none => false

/-- SafetyState.record_iteration of safety.py (lines 41-58): increment
the iteration counter, append to the history, reset or bump the
stagnation counter on the emptiness of files_changed, and update the
error streak (bump on a repeat of last_error, restart at 1 on a new
non-empty error, clear on no error). -/
def record_iteration (state : SafetyState) (files_changed : List (List Char))
    (error : Option (List Char) := Option.none) : SafetyState :=
  { iteration := state.iteration + 1
    files_changed_history := state.files_changed_history ++ [files_changed]
    consecutive_no_changes :=
      if files_changed ≠ [] then 0 else state.consecutive_no_changes + 1
    consecutive_errors :=
      if errTruthy error then
        if error = state.last_error then state.consecutive_errors + 1 else 1
      else 0
    last_error := if errTruthy error then error else Option.none }

/-- check_safety of safety.py (lines 61-71). -/
def check_safety (config : SafetyConfig) (state : SafetyState) : Option ExitReason :=
  if (state.iteration : Int) ≥ config.max_iterations then some .MAX_ITERATIONS
  else if (state.consecutive_no_changes : Int) ≥ config.stagnation_limit then some .STAGNATION
  else if state.consecutive_errors ≥ 3 then some .BLOCKED
  else Option.none

/-! Embedding of src/ticket_client.py. -/

/-- The Phase dataclass. -/
structure Phase where
  name : List Char
  completed : Bool
deriving DecidableEq

/-- The Ticket dataclass. -/
structure Ticket where
  id : List Char
  title : List Char
  status : List Char
  body : List Char
  phases : List Phase
deriving DecidableEq

/-- Ticket.current_phase: the first incomplete phase, if any. -/
def Ticket.current_phase (t : Ticket) : Option Phase :=
  t.phases.find? (fun p => !p.completed)

/-- Ticket.all_phases_complete. -/
def Ticket.all_phases_complete (t : Ticket) : Bool :=
  t.phases.all (fun p => p.completed)

/-- The re.match of ticket_client.py line 111 anchored at the start of a
line: a dash, space, bracketed space-or-x, space, and a non-empty rest
(group 2), which is stripped to give the phase name; group 1 equal to x
gives completed. -/
def phaseMatch (l : List Char) : Option Phase :=
  match l with
  | '-' :: ' ' :: '[' :: c :: ']' :: ' ' :: rest =>
    if (c = ' ' ∨ c = 'x') ∧ rest ≠ [] then
      some { name := pyStrip rest, completed := c = 'x' }
    else Option.none
  | _ => Option.none

/-- The text after the first colon of a line, modelling
line.split(colon, 1) index 1. -/
def afterColon (l : List Char) : List Char :=
  (l.dropWhile (fun c => c ≠ ':')).drop 1

/-- The accumulator threaded through the line loop of _parse_ticket. -/
structure TicketParseState where
  title : List Char := []
  status : List Char := str "open"
  body_lines : List (List Char) := []
  phases : List Phase := []
  in_frontmatter : Bool := false
  frontmatter_count : Nat := 0

/-- One iteration of the line loop of _parse_ticket (ticket_client.py
lines 94-115). -/
def ticketStep (st : TicketParseState) (line : List Char) : TicketParseState :=
  if pyStrip line = str "---" then
    { st with
      frontmatter_count := st.frontmatter_count + 1
      in_frontmatter := st.frontmatter_count + 1 = 1 }
  else if st.in_frontmatter then
    if (str "status:").isPrefixOf line then
      { st with status := pyStrip (afterColon line) }
    else st
  else if (str "# ").isPrefixOf line then
    { st with title := pyStrip (line.drop 2) }
  else
    let st := { st with body_lines := st.body_lines ++ [line] }
    match phaseMatch line with
    | some ph => { st with phases := st.phases ++ [ph] }
    | Option.none => st

/-- TicketClient._parse_ticket of ticket_client.py: strip the content,
split it into lines, run the line loop, and assemble the Ticket with
the body lines rejoined by newlines. -/
def parse_ticket (ticket_id : List Char) (content : List Char) : Ticket :=
  let st := (splitLines (pyStrip content)).foldl ticketStep {}
  { id := ticket_id
    title := st.title
    status := st.status
    body := List.intercalate ['\n'] st.body_lines
    phases := st.phases }

/-- Replacement of every non-overlapping occurrence of a non-empty
pattern, scanning left to right, as re.sub does on a literal
(re.escape-d) pattern.  The structural fuel is bounded by the text
length, which always suffices since every step consumes at least one
character. -/
def replaceAllAux : Nat → List Char → List Char → List Char → List Char
  | 0, s, _, _ => s
  | fuel + 1, s, pat, repl =>
    match s with
    | [] => []
    | c :: rest =>
      if pat ≠ [] ∧ pat.isPrefixOf (c :: rest) then
        repl ++ replaceAllAux fuel ((c :: rest).drop pat.length) pat repl
      else
        c :: replaceAllAux fuel rest pat repl

/-- re.sub with a literal pattern and replacement: replace every
occurrence. -/
def replaceAll (s pat repl : List Char) : List Char :=
  replaceAllAux s.length s pat repl

/-- TicketClient.update_phase of ticket_client.py (lines 63-77), as the
pure store rewrite it performs: the stored content is rewritten by
substituting the opposite-state checkbox line form with the new-state
form.  Both the pattern (via re.escape) and the replacement are
literal texts. -/
def update_phase (content : List Char) (phase_name : List Char) (completed : Bool) :
    List Char :=
  let checkbox := if completed then str "[x]" else str "[ ]"
  let opposite := if completed then str "[ ]" else str "[x]"
  replaceAll content (str "- " ++ opposite ++ ' ' :: phase_name)
    (str "- " ++ checkbox ++ ' ' :: phase_name)

/-! Embedding of src/loop.py.

The loop's externally visible effects on the ticket store are recorded
as a trace of TicketCall values; the outputs of the external world (the
ticket fetched on each get and the raw agent output of each invocation)
are supplied by a LoopEnv oracle indexed by call counts.  Logging and
the two presentation callbacks have no effect on control flow or store
state and are not modelled; the pause and stop flags are permanently
false in this model (no claim concerns USER_INTERRUPT), so the
while-condition always holds and the cooperative waits are skipped. -/

/-- The LoopResult dataclass of loop.py. -/
structure LoopResult where
  exit_reason : ExitReason
  iterations : Nat
  total_files_changed : List (List Char)
deriving DecidableEq

/-- One observable call to the ticket client (or one agent
invocation), in program order. -/
inductive TicketCall where
  | fetchTicket
  | setStatus (status : List Char)
  | addNote (note : List Char)
  | updatePhase (phase : PyVal) (completed : Bool)
  | invokeAgent

/-- The loop-local mutable context of Loop.run: the SafetyState, the
cumulative changed-files list, and the notes list. -/
structure LoopCtx where
  state : SafetyState
  allFiles : List (List Char)
  notes : List (List Char)

/-- The external world: the ticket returned by the n-th fetch and the
raw output of the n-th agent invocation. -/
structure LoopEnv where
  tickets : Nat → Ticket
  agentOutputs : Nat → List Char

/-- View of the parsed files_changed value as the string list that
record_iteration and the cumulative list consume (the values flowing
here are string lists; non-string elements would propagate unchanged in
Python and are dropped by this view). -/
def asStrList : PyVal → List (List Char)
  | .list l => l.filterMap (fun v => match v with | .str s => some s | _ => Option.none)
  | _ => []

/-- View of the parsed error value as the optional string that
record_iteration consumes. -/
def asOptStr : PyVal → Option (List Char)
  | .str s => some s
  | _ => Option.none

/-- Timeout fallback text of Loop._invoke_claude (loop.py lines
212-221): the synthetic report substituted when the agent invocation
times out. -/
def timeoutResponseText : List Char :=
  str "PROGRAMMATOR_STATUS:\n  phase_completed: null\n  status: BLOCKED\n  files_changed: []\n  summary: \"Timeout\"\n  error: \"Claude invocation timed out\""

/-- One iteration of the while loop of Loop.run (loop.py lines 72-171),
given the freshly fetched ticket and the raw agent output for this
cycle.  Returns either a LoopResult (the run returns) or the updated
context, together with the trace of ticket-client calls and agent
invocations of this cycle and whether the agent was invoked. -/
def runCycle (config : SafetyConfig) (ticket : Ticket) (output : List Char)
    (ctx : LoopCtx) : (LoopResult ⊕ LoopCtx) × List TicketCall × Bool :=
  if ticket.all_phases_complete then
    (.inl { exit_reason := .COMPLETE
            iterations := ctx.state.iteration
            total_files_changed := ctx.allFiles },
     [.fetchTicket, .setStatus (str "closed"),
      .addNote (str "progress: Completed all phases in " ++
        natStr ctx.state.iteration ++ str " iterations")],
     false)
  else
    match check_safety config ctx.state with
    | some safety_exit =>
      (.inl { exit_reason := safety_exit
              iterations := ctx.state.iteration
              total_files_changed := ctx.allFiles },
       [.fetchTicket,
        .addNote (str "error: Safety exit after " ++ natStr ctx.state.iteration ++
          str " iters: " ++ safety_exit.value)],
       false)
    | Option.none =>
      match parse_response output with
      | Option.none =>
        let state' := record_iteration ctx.state [] (some (str "no_status_block"))
        (.inr { state := state'
                allFiles := ctx.allFiles
                notes := ctx.notes ++
                  [str "[iter " ++ natStr state'.iteration ++ str "] No status block returned"] },
         [.fetchTicket, .invokeAgent],
         true)
      | some status =>
        let phaseCalls :=
          if pyTruthy status.phase_completed then
            [TicketCall.updatePhase status.phase_completed true,
             .addNote (str "progress: [iter " ++ natStr ctx.state.iteration ++
               str "] Completed " ++ pyStr status.phase_completed)]
          else
            [TicketCall.addNote (str "progress: [iter " ++ natStr ctx.state.iteration ++
              str "] " ++ pyStr status.summary)]
        let notes' :=
          if pyTruthy status.phase_completed then
            ctx.notes ++ [str "[iter " ++ natStr ctx.state.iteration ++
              str "] Completed: " ++ pyStr status.phase_completed]
          else
            ctx.notes ++ [str "[iter " ++ natStr ctx.state.iteration ++
              str "] " ++ pyStr status.summary]
        let allFiles' :=
          if pyTruthy status.files_changed then ctx.allFiles ++ asStrList status.files_changed
          else ctx.allFiles
        let state' := record_iteration ctx.state (asStrList status.files_changed)
          (asOptStr status.error)
        if status.status = Status.DONE then
          (.inl { exit_reason := .COMPLETE
                  iterations := state'.iteration
                  total_files_changed := allFiles' },
           [TicketCall.fetchTicket, .invokeAgent] ++ phaseCalls ++
             [.setStatus (str "closed"),
              .addNote (str "progress: Completed in " ++ natStr state'.iteration ++
                str " iterations")],
           true)
        else if status.status = Status.BLOCKED then
          (.inl { exit_reason := .BLOCKED
                  iterations := state'.iteration
                  total_files_changed := allFiles' },
           [TicketCall.fetchTicket, .invokeAgent] ++ phaseCalls ++
             [.addNote (str "error: [iter " ++ natStr state'.iteration ++
               str "] BLOCKED: " ++ pyStr status.error)],
           true)
        else
          (.inr { state := state', allFiles := allFiles', notes := notes' },
           [TicketCall.fetchTicket, .invokeAgent] ++ phaseCalls,
           true)

/-- The while loop of Loop.run, with structural fuel bounding the
number of cycles (every non-returning cycle increments the iteration
counter, so max_iterations + 1 cycles always suffice); none is returned
only on fuel exhaustion. -/
def runAux (config : SafetyConfig) (env : LoopEnv) :
    Nat → LoopCtx → Nat → Nat → Option (LoopResult × List TicketCall)
  | 0, _, _, _ => Option.none
  | fuel + 1, ctx, fetchIdx, invokeIdx =>
    let ticket := env.tickets fetchIdx
    match runCycle config ticket (env.agentOutputs invokeIdx) ctx with
    | (.inl result, calls, _) => some (result, calls)
    | (.inr ctx', calls, invoked) =>
      (runAux config env fuel ctx' (fetchIdx + 1)
        (invokeIdx + if invoked then 1 else 0)).map
        (fun p => (p.1, calls ++ p.2))

/-- Loop.run of loop.py: the initial fetch, the in_progress status
write, then the cycle loop starting with an empty context. -/
def run (config : SafetyConfig) (env : LoopEnv) (fuel : Nat) :
    Option (LoopResult × List TicketCall) :=
  (runAux config env fuel { state := {}, allFiles := [], notes := [] } 1 0).map
    (fun p => (p.1, .fetchTicket :: .setStatus (str "in_progress") :: p.2))

/-! Auxiliary definitions used only to state the claims. -/

/-- Whether a pattern occurs as a contiguous sublist of a text. -/
def containsPat (s pat : List Char) : Bool :=
  pat.isPrefixOf s ||
    match s with
    | [] => false
    | _ :: t => containsPat t pat

/-- Reference splitting of the ticket lines into frontmatter lines and
visible lines, with the marker logic of _parse_ticket: every line whose
stripped form is the marker is counted and dropped, the first marker
opens frontmatter and every later marker closes it. -/
def fmSplit : List (List Char) → Bool → Nat → List (List Char) × List (List Char)
  | [], _, _ => ([], [])
  | l :: rest, in_fm, cnt =>
    if pyStrip l = str "---" then fmSplit rest (cnt + 1 = 1) (cnt + 1)
    else if in_fm then
      (l :: (fmSplit rest in_fm cnt).1, (fmSplit rest in_fm cnt).2)
    else
      ((fmSplit rest in_fm cnt).1, l :: (fmSplit rest in_fm cnt).2)

/-- Whether a visible line is a heading line. -/
def isHeading (l : List Char) : Bool := (str "# ").isPrefixOf l

/-- Whether a frontmatter line is a status line. -/
def isStatusLine (l : List Char) : Bool := (str "status:").isPrefixOf l

/-- Reference (specification-style) reading of a fetched ticket: the
title is the text of the last visible heading line, the status is taken
from the last status line of the frontmatter (open when absent), the
body is every visible non-heading line, and the phases are the body
lines matching the checklist pattern, in encounter order. -/
def refTicket (ticket_id content : List Char) : Ticket :=
  let lines := splitLines (pyStrip content)
  let fv := fmSplit lines false 0
  let bodyLines := fv.2.filter (fun l => !isHeading l)
  { id := ticket_id
    title :=
      (((fv.2.filter isHeading).getLast?).map (fun h => pyStrip (h.drop 2))).getD []
    status :=
      (((fv.1.filter isStatusLine).getLast?).map (fun l => pyStrip (afterColon l))).getD
        (str "open")
    body := List.intercalate ['\n'] bodyLines
    phases := bodyLines.filterMap phaseMatch }

/-- A sentinel block in bare form: the sentinel line followed by the
content lines, each newline-terminated. -/
def bareForm (content : List (List Char)) : List Char :=
  sentinelStr ++ '\n' :: unlines content

/-- The same block wrapped in a fenced code block. -/
def fencedForm (content : List (List Char)) : List Char :=
  fenceStr ++ '\n' :: bareForm content ++ fenceStr

/-- Well-formedness of sentinel-block content, as lines: at least one
line, and every line is an indented chunk line without embedded
newlines. -/
def WFContent (content : List (List Char)) : Prop :=
  content ≠ [] ∧ ∀ l ∈ content, isContent l = true ∧ '\n' ∉ l

/-- A concrete ticket with one open phase, used in concrete
instantiations. -/
def oneOpenPhaseTicket : Ticket :=
  { id := str "t"
    title := str "T"
    status := str "open"
    body := []
    phases := [{ name := str "P", completed := false }] }

/-- A fresh loop context, as at the start of a run. -/
def freshCtx : LoopCtx := { state := {}, allFiles := [], notes := [] }

/-- An environment whose every fetch yields a phaseless ticket and
whose agent outputs are empty. -/
def phaselessEnv : LoopEnv :=
  { tickets := fun _ =>
      { id := str "t"
        title := str "T"
        status := str "open"
        body := []
        phases := [] }
    agentOutputs := fun _ => [] }

/-! Theorems. -/

/-- C1: check_safety returns MAX_ITERATIONS whenever the iteration
count has reached max_iterations (regardless of the other counters, so
max-iterations wins ties); below that, STAGNATION whenever the
stagnation counter has reached stagnation_limit; below that, BLOCKED
whenever the error streak has reached the fixed threshold 3; and no
exit reason otherwise. -/
theorem claim_C1 (c : SafetyConfig) (s : SafetyState) :
    (c.max_iterations ≤ (s.iteration : Int) →
      check_safety c s = some ExitReason.MAX_ITERATIONS) ∧
    ((s.iteration : Int) < c.max_iterations →
      c.stagnation_limit ≤ (s.consecutive_no_changes : Int) →
      check_safety c s = some ExitReason.STAGNATION) ∧
    ((s.iteration : Int) < c.max_iterations →
      (s.consecutive_no_changes : Int) < c.stagnation_limit →
      3 ≤ s.consecutive_errors →
      check_safety c s = some ExitReason.BLOCKED) ∧
    ((s.iteration : Int) < c.max_iterations →
      (s.consecutive_no_changes : Int) < c.stagnation_limit →
      s.consecutive_errors < 3 →
      check_safety c s = Option.none) := by
  refine ⟨fun h1 => ?_, fun h1 h2 => ?_, fun h1 h2 h3 => ?_, fun h1 h2 h3 => ?_⟩
  · simp [check_safety, ge_iff_le, h1]
  · simp [check_safety, ge_iff_le, not_le.mpr h1, h2]
  · simp [check_safety, ge_iff_le, not_le.mpr h1, not_le.mpr h2, h3]
  · simp [check_safety, ge_iff_le, not_le.mpr h1, not_le.mpr h2, not_le.mpr h3]

/-- Witness for C1: a state past all three thresholds still exits with
MAX_ITERATIONS. -/
theorem claim_C1_witness :
    check_safety { max_iterations := 3, stagnation_limit := 3, timeout_seconds := 900 }
      { iteration := 5, consecutive_no_changes := 7, last_error := Option.none,
        consecutive_errors := 9, files_changed_history := [] } =
      some ExitReason.MAX_ITERATIONS :=
  (claim_C1 _ _).1 (by decide)

/-- C2: record_iteration increments the iteration counter by one,
appends the changed-files list to the history, zeroes the stagnation
counter on a non-empty list and bumps it on an empty one, bumps the
error streak when the error repeats the previous last_error, restarts
the streak at 1 on a different non-empty error, and clears both the
streak and last_error when the error is absent or empty. -/
theorem claim_C2 (s : SafetyState) (f : List (List Char)) (e : Option (List Char)) :
    (record_iteration s f e).iteration = s.iteration + 1 ∧
    (record_iteration s f e).files_changed_history = s.files_changed_history ++ [f] ∧
    (f ≠ [] → (record_iteration s f e).consecutive_no_changes = 0) ∧
    (f = [] → (record_iteration s f e).consecutive_no_changes = s.consecutive_no_changes + 1) ∧
    (∀ t, e = some t → t ≠ [] → s.last_error = some t →
      (record_iteration s f e).consecutive_errors = s.consecutive_errors + 1 ∧
      (record_iteration s f e).last_error = some t) ∧
    (∀ t, e = some t → t ≠ [] → s.last_error ≠ some t →
      (record_iteration s f e).consecutive_errors = 1 ∧
      (record_iteration s f e).last_error = some t) ∧
    ((e = Option.none ∨ e = some []) →
      (record_iteration s f e).consecutive_errors = 0 ∧
      (record_iteration s f e).last_error = Option.none) := by
  refine ⟨rfl, rfl, fun h => ?_, fun h => ?_, fun t he ht hl => ?_, fun t he ht hl => ?_,
    fun h => ?_⟩
  · simp [record_iteration, h]
  · simp [record_iteration, h]
  · subst he
    simp [record_iteration, errTruthy, ht, hl]
  · subst he
    have : ¬ (some t = s.last_error) := fun hx => hl hx.symm
    simp [record_iteration, errTruthy, ht, this]
  · rcases h with h | h <;> subst h <;> simp [record_iteration, errTruthy]

/-- Witness for C2: a repeated error string bumps the streak from 1
to 2. -/
theorem claim_C2_witness :
    (record_iteration
      { iteration := 1, consecutive_no_changes := 0, last_error := some (str "e"),
        consecutive_errors := 1, files_changed_history := [[str "a.py"]] }
      [] (some (str "e"))).consecutive_errors = 1 + 1 ∧
    (record_iteration
      { iteration := 1, consecutive_no_changes := 0, last_error := some (str "e"),
        consecutive_errors := 1, files_changed_history := [[str "a.py"]] }
      [] (some (str "e"))).last_error = some (str "e") :=
  (claim_C2 _ [] (some (str "e"))).2.2.2.2.1 (str "e") rfl (by decide) rfl

/-- Helper: a text with no occurrence of the pattern is returned
unchanged by the fuelled replacement scan. -/
theorem replaceAllAux_of_not_contains (fuel : Nat) (s pat repl : List Char)
    (h : containsPat s pat = false) : replaceAllAux fuel s pat repl = s := by
  induction fuel generalizing s with
  | zero => rfl
  | succ n ih =>
    cases s with
    | nil => rfl
    | cons c rest =>
      rw [containsPat] at h
      simp only [Bool.or_eq_false_iff] at h
      rw [replaceAllAux, if_neg (fun hx => by simp [h.1] at hx)]
      rw [ih rest h.2]

/-- C4 counterexample: update_phase is an all-occurrences substitution,
so with two matching checklist lines the second is rewritten too,
contradicting the claim that only the first match is rewritten and all
other lines are left unchanged. -/
theorem claim_C4_counterexample :
    update_phase (str "- [ ] A\n- [ ] A") (str "A") true = str "- [x] A\n- [x] A" ∧
    update_phase (str "- [ ] A\n- [ ] A") (str "A") true ≠ str "- [x] A\n- [ ] A" := by
  decide

/-- C4 as amended: update_phase rewrites every line matching the
opposite-state checkbox form to the new state (an all-occurrences
substitution); when no text matches the pattern, the stored content is
left unmodified and no error is raised. -/
theorem claim_C4_amended :
    (∀ content name completed,
      containsPat content
        (str "- " ++ (if completed then str "[ ]" else str "[x]") ++ ' ' :: name) = false →
      update_phase content name completed = content) ∧
    update_phase (str "- [ ] A\n- [ ] A") (str "A") true = str "- [x] A\n- [x] A" := by
  constructor
  · intro content name completed h
    cases completed <;>
      exact replaceAllAux_of_not_contains _ _ _ _ h
  · decide

/-- Witness for C4: a content whose only checklist line is already in
the target state is left unchanged. -/
theorem claim_C4_amended_witness :
    update_phase (str "- [x] B") (str "A") true = str "- [x] B" :=
  claim_C4_amended.1 (str "- [x] B") (str "A") true (by decide)

/-- C5 counterexample: an agent-supplied error equal to the literal
sentinel no_status_block in the previous iteration is extended by a
missing-report record, driving the streak to 2. -/
theorem claim_C5_counterexample :
    ¬ ((record_iteration
        (record_iteration {} [str "a.py"] (some (str "no_status_block")))
        [] (some (str "no_status_block"))).consecutive_errors ≤ 1) := by
  decide

/-- C5 as amended: after recording a missing-report iteration
(files_changed empty, error the literal no_status_block), the error
streak is at most 1 whenever the previously recorded last_error is not
itself the literal sentinel text; a prior agent error equal to the
sentinel extends the streak instead. -/
theorem claim_C5_amended (s : SafetyState)
    (h : s.last_error ≠ some (str "no_status_block")) :
    (record_iteration s [] (some (str "no_status_block"))).consecutive_errors ≤ 1 := by
  have h2 : ¬ (some (str "no_status_block") = s.last_error) := fun hx => h hx.symm
  show (if errTruthy (some (str "no_status_block")) then
          if some (str "no_status_block") = s.last_error then s.consecutive_errors + 1 else 1
        else 0) ≤ 1
  rw [if_pos (by decide), if_neg h2]

/-- Witness for C5: a fresh state records the missing-report iteration
with a streak of at most 1. -/
theorem claim_C5_amended_witness :
    (record_iteration {} [] (some (str "no_status_block"))).consecutive_errors ≤ 1 :=
  claim_C5_amended {} (by decide)

/-- C3: in the field normalization of parse_response, an absent
phase_completed, a YAML null and the literal string null all yield no
completed phase; an absent or null files_changed yields the empty list
and a bare string yields the one-element list; and an absent status or
any status value other than the three enum strings yields CONTINUE (the
normalization is total, so no parse failure arises from these
fields). -/
theorem claim_C3 (d : List (List Char × PyVal)) :
    ((dictGet d (str "phase_completed") = Option.none ∨
      dictGet d (str "phase_completed") = some PyVal.none ∨
      dictGet d (str "phase_completed") = some (PyVal.str (str "null"))) →
      (normalizeStatus d).phase_completed = PyVal.none) ∧
    ((dictGet d (str "files_changed") = Option.none ∨
      dictGet d (str "files_changed") = some PyVal.none) →
      (normalizeStatus d).files_changed = PyVal.list []) ∧
    (∀ s, dictGet d (str "files_changed") = some (PyVal.str s) →
      (normalizeStatus d).files_changed = PyVal.list [PyVal.str s]) ∧
    (dictGet d (str "status") = Option.none →
      (normalizeStatus d).status = Status.CONTINUE) ∧
    (∀ v, dictGet d (str "status") = some v →
      v ≠ PyVal.str (str "CONTINUE") → v ≠ PyVal.str (str "DONE") →
      v ≠ PyVal.str (str "BLOCKED") →
      (normalizeStatus d).status = Status.CONTINUE) := by
  refine ⟨fun h => ?_, fun h => ?_, fun s h => ?_, fun h => ?_, fun v h h1 h2 h3 => ?_⟩
  · rcases h with h | h | h <;> simp [normalizeStatus, h]
  · rcases h with h | h <;> simp [normalizeStatus, h]
  · simp [normalizeStatus, h]
  · simp [normalizeStatus, h, statusOfVal]
  · have e1 : ∀ t, v = PyVal.str t → t ≠ str "CONTINUE" := by
      intro t ht hc
      exact h1 (by rw [ht, hc])
    have e2 : ∀ t, v = PyVal.str t → t ≠ str "DONE" := by
      intro t ht hc
      exact h2 (by rw [ht, hc])
    have e3 : ∀ t, v = PyVal.str t → t ≠ str "BLOCKED" := by
      intro t ht hc
      exact h3 (by rw [ht, hc])
    cases v with
    | str t =>
      simp [normalizeStatus, h, statusOfVal, e1 t rfl, e2 t rfl, e3 t rfl]
    | none => simp [normalizeStatus, h, statusOfVal]
    | bool b => simp [normalizeStatus, h, statusOfVal]
    | int i => simp [normalizeStatus, h, statusOfVal]
    | list l => simp [normalizeStatus, h, statusOfVal]

/-- Witness for C3: the empty mapping yields no completed phase, empty
files and CONTINUE. -/
theorem claim_C3_witness :
    (normalizeStatus []).phase_completed = PyVal.none ∧
    (normalizeStatus []).files_changed = PyVal.list [] ∧
    (normalizeStatus []).status = Status.CONTINUE :=
  ⟨(claim_C3 []).1 (Or.inl rfl), (claim_C3 []).2.1 (Or.inl rfl),
    (claim_C3 []).2.2.2.1 rfl⟩

/-- Helper: splitting a text that begins with a newline-free prefix
followed by a newline yields that prefix as the first line. -/
theorem splitLines_append_cons :
    ∀ (a b : List Char), '\n' ∉ a → splitLines (a ++ '\n' :: b) = a :: splitLines b
  | [], b, _ => by simp [splitLines]
  | x :: xs, b, h => by
    have hx : ¬ x = '\n' := fun hc => h (hc ▸ List.mem_cons_self x xs)
    rw [List.cons_append, splitLines, if_neg hx,
      splitLines_append_cons xs b (fun hc => h (List.mem_cons_of_mem x hc))]

/-- Helper: splitting newline-joined newline-free lines followed by a
remainder yields those lines followed by the split remainder. -/
theorem splitLines_unlines_append :
    ∀ (c : List (List Char)) (t : List Char), (∀ l ∈ c, '\n' ∉ l) →
      splitLines (unlines c ++ t) = c ++ splitLines t
  | [], t, _ => rfl
  | l :: ls, t, h => by
    rw [unlines, List.append_assoc, List.cons_append,
      splitLines_append_cons l _ (h l (List.mem_cons_self l ls)),
      splitLines_unlines_append ls t (fun y hy => h y (List.mem_cons_of_mem l hy)),
      List.cons_append]

/-- Helper: dropping a satisfied prefix runs through an all-satisfying
list into the remainder. -/
theorem dropWhile_append_of_all {α : Type} (p : α → Bool) :
    ∀ (l t : List α), (∀ x ∈ l, p x = true) → (l ++ t).dropWhile p = t.dropWhile p
  | [], _, _ => rfl
  | x :: xs, t, h => by
    simp only [List.cons_append, List.dropWhile, h x (List.mem_cons_self x xs)]
    exact dropWhile_append_of_all p xs t (fun y hy => h y (List.mem_cons_of_mem x hy))

/-- Helper: dropping a satisfied prefix of an appended list stops inside
the first part when something survives there. -/
theorem dropWhile_append_of_ne_nil {α : Type} (p : α → Bool) :
    ∀ (l t : List α), l.dropWhile p ≠ [] → (l ++ t).dropWhile p = l.dropWhile p ++ t
  | [], _, h => absurd rfl h
  | x :: xs, t, h => by
    cases hx : p x with
    | true =>
      simp only [List.dropWhile, hx] at h
      simp only [List.cons_append, List.dropWhile, hx]
      exact dropWhile_append_of_ne_nil p xs t h
    | false =>
      simp only [List.cons_append, List.dropWhile, hx, List.append_eq]

/-- Helper: taking a satisfied prefix runs through an all-satisfying
list into the remainder. -/
theorem takeWhile_append_of_all {α : Type} (p : α → Bool) :
    ∀ (l t : List α), (∀ x ∈ l, p x = true) → (l ++ t).takeWhile p = l ++ t.takeWhile p
  | [], _, _ => rfl
  | x :: xs, t, h => by
    simp only [List.cons_append, List.takeWhile, h x (List.mem_cons_self x xs),
      List.append_eq]
    rw [takeWhile_append_of_all p xs t (fun y hy => h y (List.mem_cons_of_mem x hy))]

/-- Helper: everything in a list is satisfied when dropping the
satisfied prefix leaves nothing. -/
theorem all_of_dropWhile_eq_nil {α : Type} (p : α → Bool) :
    ∀ (l : List α), l.dropWhile p = [] → ∀ x ∈ l, p x = true
  | [], _, x, hx => absurd hx (List.not_mem_nil x)
  | y :: ys, h, x, hx => by
    cases hy : p y with
    | true =>
      simp only [List.dropWhile, hy] at h
      rcases List.mem_cons.mp hx with rfl | hx'
      · exact hy
      · exact all_of_dropWhile_eq_nil p ys h x hx'
    | false =>
      simp only [List.dropWhile, hy] at h
      exact absurd h (List.cons_ne_nil y ys)

/-- Helper: members of the dropped-prefix remainder are members. -/
theorem mem_of_mem_dropWhile {α : Type} (p : α → Bool) :
    ∀ (l : List α) (x : α), x ∈ l.dropWhile p → x ∈ l
  | [], x, hx => hx
  | y :: ys, x, hx => by
    cases hy : p y with
    | true =>
      simp only [List.dropWhile, hy] at hx
      exact List.mem_cons_of_mem y (mem_of_mem_dropWhile p ys x hx)
    | false =>
      simp only [List.dropWhile, hy] at hx
      exact hx

/-- Helper: the backtracking start-search distributes over an appended
run, preferring the later part. -/
theorem pickLast_append :
    ∀ (xs ys t : List (List Char)),
      pickLast (xs ++ ys) t =
        match pickLast ys t with
        | some r => some r
        | Option.none => pickLast xs (ys ++ t)
  | [], ys, t => by
    cases h : pickLast ys t <;> simp [h, pickLast]
  | w :: ws, ys, t => by
    rw [List.cons_append, pickLast, pickLast_append ws ys t]
    cases h : pickLast ys t with
    | some r => rfl
    | none =>
      rw [pickLast]
      cases h2 : pickLast ws (ys ++ t) with
      | some r => rfl
      | none => simp [List.append_assoc]

/-- Helper: on a run of chunk-shaped lines the backtracking start-search
picks the last line, leaving the tail as continuation. -/
theorem pickLast_all_content :
    ∀ (c : List (List Char)) (t : List (List Char)) (h : c ≠ []),
      (∀ l ∈ c, isContent l = true) →
      pickLast c t = some (c.getLast h :: t)
  | [], _, h, _ => absurd rfl h
  | [w], t, _, hall => by
    rw [pickLast, pickLast, if_pos (hall w (List.mem_cons_self w []))]
    rfl
  | w :: v :: ws, t, _, hall => by
    rw [pickLast,
      pickLast_all_content (v :: ws) t (List.cons_ne_nil v ws)
        (fun y hy => hall y (List.mem_cons_of_mem w hy))]
    rfl

/-- Helper: the capture group after the sentinel is the same whether
the lines that follow the well-formed content are the empty final line
of the bare form or the closing fence line of the fenced form. -/
theorem captureFrom_wf (c : List (List Char)) (hne : c ≠ [])
    (hall : ∀ l ∈ c, isContent l = true) :
    ∃ cap rem1 rem2, captureFrom (c ++ [[]]) = some (cap, rem1) ∧
      captureFrom (c ++ [fenceStr]) = some (cap, rem2) := by
  by_cases hd : c.dropWhile wsOnly = []
  · have hallws : ∀ l ∈ c, wsOnly l = true := all_of_dropWhile_eq_nil wsOnly c hd
    have h1 : (c ++ [[]]).dropWhile wsOnly = [] := by
      rw [dropWhile_append_of_all wsOnly c [[]] hallws]
      rfl
    have h2 : (c ++ [fenceStr]).dropWhile wsOnly = [fenceStr] := by
      rw [dropWhile_append_of_all wsOnly c [fenceStr] hallws]
      rfl
    have t1 : (c ++ [[]]).takeWhile wsOnly = c ++ [[]] := by
      rw [takeWhile_append_of_all wsOnly c [[]] hallws]
      rfl
    have t2 : (c ++ [fenceStr]).takeWhile wsOnly = c := by
      rw [takeWhile_append_of_all wsOnly c [fenceStr] hallws]
      simp [List.takeWhile, wsOnly, fenceStr, pySpace, str]
    have p0 : pickLast ([[]] : List (List Char)) [] = Option.none := rfl
    have p1 : pickLast (c ++ [[]]) [] = some (c.getLast hne :: [[]]) := by
      rw [pickLast_append c [[]] [], p0]
      exact pickLast_all_content c [[]] hne hall
    have p2 : pickLast c [fenceStr] = some (c.getLast hne :: [fenceStr]) :=
      pickLast_all_content c [fenceStr] hne hall
    have hlast : isContent (c.getLast hne) = true := hall _ (List.getLast_mem hne)
    have hiE : isContent ([] : List Char) = false := rfl
    have hiF : isContent fenceStr = false := by decide
    refine ⟨[c.getLast hne], [[]], [fenceStr], ?_, ?_⟩
    · simp only [captureFrom, h1, t1, p1]
      simp only [List.takeWhile, List.dropWhile, hlast, hiE]
    · simp only [captureFrom, h2, t2]
      rw [if_neg (by decide : ¬ isContent fenceStr = true), p2]
      simp only [List.takeWhile, List.dropWhile, hlast, hiE, hiF]
  · obtain ⟨d, ds, hdd⟩ : ∃ d ds, c.dropWhile wsOnly = d :: ds := by
      cases h : c.dropWhile wsOnly with
      | nil => exact absurd h hd
      | cons d ds => exact ⟨d, ds, rfl⟩
    have hsub : ∀ x ∈ d :: ds, x ∈ c := by
      intro x hx
      exact mem_of_mem_dropWhile wsOnly c x (hdd ▸ hx)
    have hallc : ∀ x ∈ d :: ds, isContent x = true := fun x hx => hall x (hsub x hx)
    have h1 : (c ++ [[]]).dropWhile wsOnly = d :: (ds ++ [[]]) := by
      rw [dropWhile_append_of_ne_nil wsOnly c [[]] (by rw [hdd]; simp), hdd]
      rfl
    have h2 : (c ++ [fenceStr]).dropWhile wsOnly = d :: (ds ++ [fenceStr]) := by
      rw [dropWhile_append_of_ne_nil wsOnly c [fenceStr] (by rw [hdd]; simp), hdd]
      rfl
    have hdc : isContent d = true := hallc d (List.mem_cons_self d ds)
    have cap1 : (d :: (ds ++ [[]])).takeWhile isContent = d :: ds := by
      rw [show d :: (ds ++ [[]]) = (d :: ds) ++ [[]] from rfl,
        takeWhile_append_of_all isContent (d :: ds) [[]] hallc,
        show List.takeWhile isContent ([[]] : List (List Char)) = [] from rfl,
        List.append_nil]
    have cap2 : (d :: (ds ++ [fenceStr])).takeWhile isContent = d :: ds := by
      rw [show d :: (ds ++ [fenceStr]) = (d :: ds) ++ [fenceStr] from rfl,
        takeWhile_append_of_all isContent (d :: ds) [fenceStr] hallc]
      simp [List.takeWhile, isContent, fenceStr, str]
    refine ⟨d :: ds, (d :: (ds ++ [[]])).dropWhile isContent,
      (d :: (ds ++ [fenceStr])).dropWhile isContent, ?_, ?_⟩
    · simp only [captureFrom, h1]
      rw [if_pos hdc]
      show some (List.takeWhile isContent (d :: (ds ++ [[]])),
          List.dropWhile isContent (d :: (ds ++ [[]]))) =
        some (d :: ds, List.dropWhile isContent (d :: (ds ++ [[]])))
      rw [cap1]
    · simp only [captureFrom, h2]
      rw [if_pos hdc]
      show some (List.takeWhile isContent (d :: (ds ++ [fenceStr])),
          List.dropWhile isContent (d :: (ds ++ [fenceStr]))) =
        some (d :: ds, List.dropWhile isContent (d :: (ds ++ [fenceStr])))
      rw [cap2]

/-- C7: a well-formed sentinel block parses to the same result whether
it stands bare or wrapped in a fenced code block (in both cases the
bare pattern finds the same capture group), and the fenced pattern is
consulted only when the bare pattern finds no match. -/
theorem claim_C7 :
    (∀ content, WFContent content →
      parse_response (bareForm content) = parse_response (fencedForm content)) ∧
    (∀ output cap, findBare (splitLines output) = some cap →
      extractBlock output = some cap) ∧
    (∀ output, findBare (splitLines output) = Option.none →
      extractBlock output = findFenced (splitLines output)) := by
  refine ⟨?_, ?_, ?_⟩
  · intro c hwf
    obtain ⟨hne, hprop⟩ := hwf
    have hall : ∀ l ∈ c, isContent l = true := fun l hl => (hprop l hl).1
    have hnl : ∀ l ∈ c, '\n' ∉ l := fun l hl => (hprop l hl).2
    have hb : splitLines (bareForm c) = sentinelStr :: (c ++ [[]]) := by
      rw [bareForm, splitLines_append_cons sentinelStr _ (by decide)]
      have h2 := splitLines_unlines_append c [] hnl
      rw [List.append_nil] at h2
      rw [h2]
      rfl
    have hf : splitLines (fencedForm c) = fenceStr :: sentinelStr :: (c ++ [fenceStr]) := by
      rw [show fencedForm c = fenceStr ++ '\n' :: (bareForm c ++ fenceStr) from rfl]
      rw [splitLines_append_cons fenceStr _ (by decide)]
      rw [show bareForm c ++ fenceStr = sentinelStr ++ '\n' :: (unlines c ++ fenceStr) from by
        rw [bareForm, List.append_assoc, List.cons_append]]
      rw [splitLines_append_cons sentinelStr _ (by decide),
        splitLines_unlines_append c fenceStr hnl]
      rfl
    obtain ⟨cap, rem1, rem2, hc1, hc2⟩ := captureFrom_wf c hne hall
    have hfb1 : findBare (sentinelStr :: (c ++ [[]])) = some cap := by
      rw [findBare, if_pos (by decide : sentinelBareLine sentinelStr = true), hc1]
    have hfb2 : findBare (fenceStr :: sentinelStr :: (c ++ [fenceStr])) = some cap := by
      rw [findBare, if_neg (by decide : ¬ sentinelBareLine fenceStr = true),
        findBare, if_pos (by decide : sentinelBareLine sentinelStr = true), hc2]
    have he1 : extractBlock (bareForm c) = some cap := by
      rw [extractBlock]
      rw [hb, hfb1]
    have he2 : extractBlock (fencedForm c) = some cap := by
      rw [extractBlock]
      rw [hf, hfb2]
    rw [parse_response, parse_response, he1, he2]
  · intro output cap h
    rw [extractBlock, h]
  · intro output h
    rw [extractBlock, h]

/-- Witness for C7: a concrete well-formed one-line block parses
identically in bare and fenced form. -/
theorem claim_C7_witness :
    parse_response (bareForm [str "  status: DONE"]) =
      parse_response (fencedForm [str "  status: DONE"]) :=
  claim_C7.1 [str "  status: DONE"] ⟨by decide, by decide⟩

/-- C8: the synthetic timeout text parses to a BLOCKED report with no
completed phase, empty changed files, the summary Timeout and a
non-empty error, and any cycle reaching the agent invocation with that
output terminates the run through the ordinary BLOCKED exit path. -/
theorem claim_C8 :
    parse_response timeoutResponseText =
      some { phase_completed := PyVal.none, status := Status.BLOCKED,
             files_changed := PyVal.list [], summary := PyVal.str (str "Timeout"),
             error := PyVal.str (str "Claude invocation timed out") } ∧
    (∀ (cfg : SafetyConfig) (ticket : Ticket) (ctx : LoopCtx),
      ticket.all_phases_complete = false →
      check_safety cfg ctx.state = Option.none →
      (runCycle cfg ticket timeoutResponseText ctx).1 =
        Sum.inl { exit_reason := ExitReason.BLOCKED,
                  iterations := ctx.state.iteration + 1,
                  total_files_changed := ctx.allFiles }) := by
  constructor
  · rfl
  · intro cfg ticket ctx hc hs
    have hp : parse_response timeoutResponseText =
        some { phase_completed := PyVal.none, status := Status.BLOCKED,
               files_changed := PyVal.list [], summary := PyVal.str (str "Timeout"),
               error := PyVal.str (str "Claude invocation timed out") } := rfl
    have hrec : (record_iteration ctx.state
        (asStrList (PyVal.list []))
        (asOptStr (PyVal.str (str "Claude invocation timed out")))).iteration =
        ctx.state.iteration + 1 := rfl
    simp only [runCycle, hc, hs, hp, hrec]
    simp [pyTruthy]

/-- Witness for C8: a concrete one-phase ticket and fresh context exit
with BLOCKED on the timeout text. -/
theorem claim_C8_witness :
    (runCycle {} oneOpenPhaseTicket timeoutResponseText freshCtx).1 =
      Sum.inl { exit_reason := ExitReason.BLOCKED, iterations := 0 + 1,
                total_files_changed := [] } :=
  claim_C8.2 {} oneOpenPhaseTicket freshCtx (by decide) (by decide)

/-- C9: a cycle whose parsed report has status BLOCKED appends an
error note, never calls set-status (in particular not with closed),
and returns with exit reason BLOCKED; and every successful run opened
by writing status in_progress (so a blocked exit leaves that value in
place while a complete exit overwrites it with closed). -/
theorem claim_C9 :
    (∀ (cfg : SafetyConfig) (ticket : Ticket) (output : List Char) (ctx : LoopCtx)
        (st : ProgrammatorStatus),
      ticket.all_phases_complete = false →
      check_safety cfg ctx.state = Option.none →
      parse_response output = some st →
      st.status = Status.BLOCKED →
      ∃ files calls,
        runCycle cfg ticket output ctx =
          (Sum.inl { exit_reason := ExitReason.BLOCKED,
                     iterations := ctx.state.iteration + 1,
                     total_files_changed := files }, calls, true) ∧
        (∀ s, TicketCall.setStatus s ∉ calls) ∧
        TicketCall.addNote (str "error: [iter " ++ natStr (ctx.state.iteration + 1) ++
          str "] BLOCKED: " ++ pyStr st.error) ∈ calls) ∧
    (∀ (cfg : SafetyConfig) (env : LoopEnv) (fuel : Nat) (r : LoopResult)
        (trace : List TicketCall),
      run cfg env fuel = some (r, trace) →
      ∃ rest, trace =
        TicketCall.fetchTicket :: TicketCall.setStatus (str "in_progress") :: rest) := by
  constructor
  · intro cfg ticket output ctx st hc hs hp hb
    have hrec : (record_iteration ctx.state (asStrList st.files_changed)
        (asOptStr st.error)).iteration = ctx.state.iteration + 1 := rfl
    by_cases hph : pyTruthy st.phase_completed = true
    · have e : runCycle cfg ticket output ctx =
          (Sum.inl { exit_reason := ExitReason.BLOCKED,
                     iterations := ctx.state.iteration + 1,
                     total_files_changed :=
                       if pyTruthy st.files_changed = true then
                         ctx.allFiles ++ asStrList st.files_changed
                       else ctx.allFiles },
           [TicketCall.fetchTicket, TicketCall.invokeAgent,
            TicketCall.updatePhase st.phase_completed true,
            TicketCall.addNote (str "progress: [iter " ++ natStr ctx.state.iteration ++
              str "] Completed " ++ pyStr st.phase_completed),
            TicketCall.addNote (str "error: [iter " ++ natStr (ctx.state.iteration + 1) ++
              str "] BLOCKED: " ++ pyStr st.error)],
           true) := by
        simp [runCycle, hc, hs, hp, hb, hph, hrec]
      refine ⟨_, _, e, fun s => ?_, ?_⟩
      · simp
      · simp
    · have e : runCycle cfg ticket output ctx =
          (Sum.inl { exit_reason := ExitReason.BLOCKED,
                     iterations := ctx.state.iteration + 1,
                     total_files_changed :=
                       if pyTruthy st.files_changed = true then
                         ctx.allFiles ++ asStrList st.files_changed
                       else ctx.allFiles },
           [TicketCall.fetchTicket, TicketCall.invokeAgent,
            TicketCall.addNote (str "progress: [iter " ++ natStr ctx.state.iteration ++
              str "] " ++ pyStr st.summary),
            TicketCall.addNote (str "error: [iter " ++ natStr (ctx.state.iteration + 1) ++
              str "] BLOCKED: " ++ pyStr st.error)],
           true) := by
        simp [runCycle, hc, hs, hp, hb, hph, hrec]
      refine ⟨_, _, e, fun s => ?_, ?_⟩
      · simp
      · simp
  · intro cfg env fuel r trace h
    cases haux : runAux cfg env fuel { state := {}, allFiles := [], notes := [] } 1 0 with
    | none => simp [run, haux] at h
    | some p =>
      refine ⟨p.2, ?_⟩
      simp only [run, haux, Option.map] at h
      injection h with h'
      exact (congrArg Prod.snd h').symm

/-- Witness for C9: the timeout text gives a concrete BLOCKED cycle. -/
theorem claim_C9_witness :
    ∃ files calls,
      runCycle {} oneOpenPhaseTicket timeoutResponseText freshCtx =
        (Sum.inl { exit_reason := ExitReason.BLOCKED, iterations := 0 + 1,
                   total_files_changed := files }, calls, true) ∧
      (∀ s, TicketCall.setStatus s ∉ calls) ∧
      TicketCall.addNote (str "error: [iter " ++ natStr (0 + 1) ++
        str "] BLOCKED: " ++
        pyStr (PyVal.str (str "Claude invocation timed out"))) ∈ calls :=
  claim_C9.1 {} oneOpenPhaseTicket timeoutResponseText freshCtx
    _ (by decide) (by decide) rfl rfl

/-- C10: a ticket whose phase list is empty makes the run exit on the
first cycle with COMPLETE, zero iterations and no changed files,
setting the ticket status to closed and appending the completion note,
without ever invoking the agent. -/
theorem claim_C10 (cfg : SafetyConfig) (env : LoopEnv) (fuel : Nat)
    (h : (env.tickets 1).phases = []) :
    run cfg env (fuel + 1) =
      some ({ exit_reason := ExitReason.COMPLETE, iterations := 0,
              total_files_changed := [] },
        [TicketCall.fetchTicket, TicketCall.setStatus (str "in_progress"),
         TicketCall.fetchTicket, TicketCall.setStatus (str "closed"),
         TicketCall.addNote (str "progress: Completed all phases in " ++ natStr 0 ++
           str " iterations")]) ∧
    (∀ (r : LoopResult) (trace : List TicketCall),
      run cfg env (fuel + 1) = some (r, trace) → TicketCall.invokeAgent ∉ trace) := by
  have h1 : run cfg env (fuel + 1) =
      some ({ exit_reason := ExitReason.COMPLETE, iterations := 0,
              total_files_changed := [] },
        [TicketCall.fetchTicket, TicketCall.setStatus (str "in_progress"),
         TicketCall.fetchTicket, TicketCall.setStatus (str "closed"),
         TicketCall.addNote (str "progress: Completed all phases in " ++ natStr 0 ++
           str " iterations")]) := by
    simp only [run, runAux, runCycle, Ticket.all_phases_complete, h]
    rfl
  refine ⟨h1, ?_⟩
  intro r trace ht
  rw [h1] at ht
  injection ht with ht'
  have h2 : trace =
      [TicketCall.fetchTicket, TicketCall.setStatus (str "in_progress"),
       TicketCall.fetchTicket, TicketCall.setStatus (str "closed"),
       TicketCall.addNote (str "progress: Completed all phases in " ++ natStr 0 ++
         str " iterations")] :=
    (congrArg Prod.snd ht').symm
  rw [h2]
  simp

/-- Helper: a fold that always replaces its accumulator computes its
function at the last element, keeping the initial value on an empty
list. -/
theorem foldl_replace_getLast (g : List Char → List Char) :
    ∀ (L : List (List Char)) (init : List Char),
      L.foldl (fun _ x => g x) init = ((L.getLast?).map g).getD init
  | [], _ => rfl
  | x :: xs, init => by
    rw [List.foldl_cons, foldl_replace_getLast g xs (g x)]
    cases xs with
    | nil => rfl
    | cons y ys =>
      obtain ⟨w, hw⟩ := Option.isSome_iff_exists.mp
        (List.getLast?_isSome.mpr (List.cons_ne_nil y ys))
      rw [List.getLast?_cons_cons, hw]
      rfl

/-- Helper: the fold of the _parse_ticket line loop, characterized
against the frontmatter/visible split: the title fold runs over the
visible heading lines, the status fold over the frontmatter status
lines, and the body and phases accumulate the visible non-heading
lines and their checklist matches. -/
theorem ticketStep_foldl :
    ∀ (lines : List (List Char)) (st : TicketParseState),
      (lines.foldl ticketStep st).title =
        ((fmSplit lines st.in_frontmatter st.frontmatter_count).2.filter isHeading).foldl
          (fun _ h => pyStrip (h.drop 2)) st.title ∧
      (lines.foldl ticketStep st).status =
        ((fmSplit lines st.in_frontmatter st.frontmatter_count).1.filter isStatusLine).foldl
          (fun _ l => pyStrip (afterColon l)) st.status ∧
      (lines.foldl ticketStep st).body_lines =
        st.body_lines ++
          (fmSplit lines st.in_frontmatter st.frontmatter_count).2.filter
            (fun l => !isHeading l) ∧
      (lines.foldl ticketStep st).phases =
        st.phases ++
          ((fmSplit lines st.in_frontmatter st.frontmatter_count).2.filter
            (fun l => !isHeading l)).filterMap phaseMatch
  | [], st => by simp [fmSplit]
  | l :: rest, st => by
    rw [List.foldl_cons]
    by_cases hm : pyStrip l = str "---"
    · have hstep : ticketStep st l =
          { st with
            frontmatter_count := st.frontmatter_count + 1
            in_frontmatter := st.frontmatter_count + 1 = 1 } := by
        simp [ticketStep, hm]
      have hsplit : fmSplit (l :: rest) st.in_frontmatter st.frontmatter_count =
          fmSplit rest (st.frontmatter_count + 1 = 1) (st.frontmatter_count + 1) := by
        simp [fmSplit, hm]
      rw [hstep, hsplit]
      exact ticketStep_foldl rest _
    · cases hf : st.in_frontmatter with
      | true =>
        have hsplit : fmSplit (l :: rest) true st.frontmatter_count =
            (l :: (fmSplit rest true st.frontmatter_count).1,
             (fmSplit rest true st.frontmatter_count).2) := by
          simp [fmSplit, hm]
        by_cases hsl : (str "status:").isPrefixOf l
        · have hstep : ticketStep st l = { st with status := pyStrip (afterColon l) } := by
            simp [ticketStep, hm, hf, hsl]
          rw [hstep, hsplit]
          have ih := ticketStep_foldl rest { st with status := pyStrip (afterColon l) }
          simpa [isStatusLine, hsl, hf, List.filter_cons] using ih
        · have hstep : ticketStep st l = st := by
            simp [ticketStep, hm, hf, hsl]
          rw [hstep, hsplit]
          have ih := ticketStep_foldl rest st
          simpa [isStatusLine, hsl, hf, List.filter_cons] using ih
      | false =>
        have hsplit : fmSplit (l :: rest) false st.frontmatter_count =
            ((fmSplit rest false st.frontmatter_count).1,
             l :: (fmSplit rest false st.frontmatter_count).2) := by
          simp [fmSplit, hm]
        by_cases hh : (str "# ").isPrefixOf l
        · have hstep : ticketStep st l = { st with title := pyStrip (l.drop 2) } := by
            simp [ticketStep, hm, hf, hh]
          rw [hstep, hsplit]
          have ih := ticketStep_foldl rest { st with title := pyStrip (l.drop 2) }
          simpa [isHeading, hh, hf, List.filter_cons] using ih
        · cases hpm : phaseMatch l with
          | some ph =>
            have hstep : ticketStep st l =
                { st with
                  body_lines := st.body_lines ++ [l]
                  phases := st.phases ++ [ph] } := by
              simp [ticketStep, hm, hf, hh, hpm]
            rw [hstep, hsplit]
            have ih := ticketStep_foldl rest
              { st with
                body_lines := st.body_lines ++ [l]
                phases := st.phases ++ [ph] }
            simpa [isHeading, hh, hf, hpm, List.filter_cons, List.filterMap_cons,
              List.append_assoc] using ih
          | none =>
            have hstep : ticketStep st l =
                { st with body_lines := st.body_lines ++ [l] } := by
              simp [ticketStep, hm, hf, hh, hpm]
            rw [hstep, hsplit]
            have ih := ticketStep_foldl rest { st with body_lines := st.body_lines ++ [l] }
            simpa [isHeading, hh, hf, hpm, List.filter_cons, List.filterMap_cons,
              List.append_assoc] using ih

/-- C6 counterexample: with two heading lines, the title is the text of
the second (last) heading line, not the first, and the second heading
line is not accumulated into the body. -/
theorem claim_C6_counterexample :
    (parse_ticket (str "t1") (str "# A\n# B\nx")).title = str "B" ∧
    (parse_ticket (str "t1") (str "# A\n# B\nx")).body = str "x" := by
  decide

/-- C6 as amended: fetch parsing sets the title to the text of the last
line starting with the heading marker (heading lines being excluded
from the body), accumulates every remaining non-frontmatter
non-heading non-marker line into the body, captures every body line
matching the checklist pattern as a Phase in encounter order, and a
frontmatter without a status line yields lifecycle status open. -/
theorem claim_C6_amended (ticket_id content : List Char) :
    parse_ticket ticket_id content = refTicket ticket_id content := by
  obtain ⟨h1, h2, h3, h4⟩ :=
    ticketStep_foldl (splitLines (pyStrip content)) {}
  unfold parse_ticket refTicket
  simp only [Ticket.mk.injEq, true_and, eq_self_iff_true]
  refine ⟨?_, ?_, ?_, ?_⟩
  · rw [h1, foldl_replace_getLast]
  · rw [h2, foldl_replace_getLast]
  · rw [h3]
    rfl
  · rw [h4]
    rfl

/-- Witness for C10: a concrete phaseless ticket environment. -/
theorem claim_C10_witness :
    run {} phaselessEnv 1 =
      some ({ exit_reason := ExitReason.COMPLETE, iterations := 0,
              total_files_changed := [] },
        [TicketCall.fetchTicket, TicketCall.setStatus (str "in_progress"),
         TicketCall.fetchTicket, TicketCall.setStatus (str "closed"),
         TicketCall.addNote (str "progress: Completed all phases in " ++ natStr 0 ++
           str " iterations")]) :=
  (claim_C10 {} phaselessEnv 0 rfl).1

end Programmator
